import Mathlib

/-!
Shallow embedding of the taskflow backend core: the schema introspection
module (`backend/core/schema/introspection.py`), the generic repository
factory (`backend/core/repositories/base.py`), and the view-level
allow-list filtering (`backend/core/views/dynamic.py`).

Python dicts are embedded as association lists built in insertion order;
JSON-serializable values as the inductive `JValue`; the Django model/field
metadata consumed by the introspector as explicit structures whose
`Option` fields model Python `hasattr` checks.  Django ORM internals
(queryset filtering/ordering, model validation via `full_clean`) are not
part of this repository's source and enter as opaque parameters.
-/

/-- A JSON-serializable value, the codomain of the emitted schema dicts. -/
inductive JValue where
  | null
  | str (s : String)
  | int (n : Int)
  | float (repr : String)
  | bool (b : Bool)
  | arr (xs : List JValue)
  | obj (kvs : List (String × JValue))

/-- A Python runtime value as seen by the default-serialization code in
`get_field_schema`: either a no-argument callable, one of the primitive
types tested by `isinstance(default, (str, int, float, bool, type(None)))`,
or some other object carrying its `str()` form. -/
inductive PyValue where
  | callable
  | str (s : String)
  | int (n : Int)
  | float (repr : String)
  | bool (b : Bool)
  | none
  | other (strForm : String)

/-- The three Django relationship field classes special-cased by
`isinstance(field, (ForeignKey, OneToOneField, ManyToManyField))`. -/
inductive RelKind where
  | foreignKey
  | oneToOne
  | manyToMany
deriving DecidableEq

/-- `isinstance(field, ManyToManyField)`. -/
def RelKind.isMany : RelKind → Bool
  | RelKind.manyToMany => true
  | _ => false

/-- Relationship metadata carried by a relationship field: the related
model's class `__name__` and which relationship class the field is. -/
structure RelInfo where
  kind : RelKind
  related_model : String

/-- A Django model field as consumed by `get_field_schema`.
`Option` components model Python attribute presence (`hasattr`):
`none` means the attribute is absent.  `max_length` is doubly optional:
the outer layer is `hasattr(field, 'max_length')`, the inner layer is
the attribute value itself possibly being Python `None`.
`rel` is `some r` exactly when the field is an instance of
`ForeignKey`/`OneToOneField`/`ManyToManyField`.
`auto_created`/`concrete` are the flags tested by `get_model_schema`
to skip reverse relations. -/
structure DjangoField where
  name : String
  className : String
  null : Bool
  blank : Bool
  hasDefault : Bool
  default : PyValue
  verbose_name : Option String
  help_text : String
  max_length : Option (Option Nat)
  choices : Option (List (JValue × String))
  max_digits : Option Nat
  decimal_places : Option Nat
  unique : Option Bool
  rel : Option RelInfo
  auto_created : Bool
  concrete : Bool

/-- Python `str.capitalize()`: first character uppercased, the rest
lowercased. -/
def pyCapitalize (s : String) : String :=
  match s.data with
  | [] => ""
  | c :: cs => String.mk (c.toUpper :: cs.map Char.toLower)

/-- Helper for `pyTitle`: walk the characters tracking whether the
previous character was alphabetic. -/
def pyTitleAux : Bool → List Char → List Char
  | _, [] => []
  | prevAlpha, c :: cs =>
    if c.isAlpha then
      (if prevAlpha then c.toLower else c.toUpper) :: pyTitleAux true cs
    else
      c :: pyTitleAux false cs

/-- Python `str.title()`: each run of letters starts uppercase, the rest
of the run is lowercased. -/
def pyTitle (s : String) : String :=
  String.mk (pyTitleAux false s.data)

/-- `get_field_type` (introspection.py): map the Django field class name
through the explicit table, falling back to the lowercased class name. -/
def get_field_type (className : String) : String :=
  let type_mapping : List (String × String) := [
    ("AutoField", "auto"),
    ("BigAutoField", "auto"),
    ("CharField", "string"),
    ("TextField", "text"),
    ("IntegerField", "integer"),
    ("BigIntegerField", "integer"),
    ("PositiveIntegerField", "integer"),
    ("SmallIntegerField", "integer"),
    ("FloatField", "float"),
    ("DecimalField", "decimal"),
    ("BooleanField", "boolean"),
    ("DateField", "date"),
    ("DateTimeField", "datetime"),
    ("TimeField", "time"),
    ("EmailField", "email"),
    ("URLField", "url"),
    ("SlugField", "slug"),
    ("UUIDField", "uuid"),
    ("FileField", "file"),
    ("ImageField", "image"),
    ("JSONField", "json"),
    ("ForeignKey", "foreignkey"),
    ("OneToOneField", "onetoone"),
    ("ManyToManyField", "manytomany")]
  match type_mapping.lookup className with
  | some t => t
  | Option.none => className.toLower

/-- The serialization of a declared default value in `get_field_schema`:
`callable(default)` maps to `None`, the primitives pass through verbatim,
anything else is coerced with `str(default)`. -/
def serializeDefault : PyValue → JValue
  | PyValue.callable => JValue.null
  | PyValue.str s => JValue.str s
  | PyValue.int n => JValue.int n
  | PyValue.float r => JValue.float r
  | PyValue.bool b => JValue.bool b
  | PyValue.none => JValue.null
  | PyValue.other strForm => JValue.str strForm

/-- A field schema: the Python dict emitted by `get_field_schema`,
as an association list in insertion order. -/
abbrev FieldSchema := List (String × JValue)

/-- The initial `field_info` dict of `get_field_schema`: the five keys
set unconditionally for every field. -/
def baseInfo (field : DjangoField) : FieldSchema := [
  ("name", JValue.str field.name),
  ("type", JValue.str (get_field_type field.className)),
  ("required", JValue.bool (!field.null && !field.blank && !field.hasDefault)),
  ("label", JValue.str (match field.verbose_name with
    | some v => pyCapitalize v
    | Option.none => pyTitle ((field.name.replace "_" " ")))),
  ("help_text", if field.help_text ≠ "" then JValue.str field.help_text else JValue.null)]

/-- `if hasattr(field, 'max_length') and field.max_length:` — the key is
written only when the attribute exists and its value is truthy (neither
`None` nor `0`). -/
def mlPart (field : DjangoField) : FieldSchema :=
  match field.max_length with
  | some (some n) => if n ≠ 0 then [("max_length", JValue.int (n : Int))] else []
  | _ => []

/-- `if hasattr(field, 'choices') and field.choices:` — written only for
a present, non-empty choice list, as a list of value/label dicts. -/
def chPart (field : DjangoField) : FieldSchema :=
  match field.choices with
  | some cs =>
    if cs.isEmpty then []
    else [("choices", JValue.arr (cs.map (fun c =>
      JValue.obj [("value", c.1), ("label", JValue.str c.2)])))]
  | Option.none => []

/-- The value stored under `'default'` for a non-relationship field:
the serialized declared default when `field.has_default()`, else `None`. -/
def defaultJson (field : DjangoField) : JValue :=
  if field.hasDefault then serializeDefault field.default else JValue.null

/-- The `'default'` entry, written for every non-relationship field. -/
def defPart (field : DjangoField) : FieldSchema :=
  [("default", defaultJson field)]

/-- `if hasattr(field, 'max_digits'):` — written whenever the attribute
exists (no truthiness check in the source). -/
def digitsPart (field : DjangoField) : FieldSchema :=
  match field.max_digits with
  | some n => [("max_digits", JValue.int (n : Int))]
  | Option.none => []

/-- `if hasattr(field, 'decimal_places'):`. -/
def dpPart (field : DjangoField) : FieldSchema :=
  match field.decimal_places with
  | some n => [("decimal_places", JValue.int (n : Int))]
  | Option.none => []

/-- `if hasattr(field, 'unique'):`. -/
def uniquePart (field : DjangoField) : FieldSchema :=
  match field.unique with
  | some b => [("unique", JValue.bool b)]
  | Option.none => []

/-- `get_field_schema` (introspection.py): the base keys, then either
the two relationship keys or the scalar-field keys, in the source's
insertion order. -/
def get_field_schema (field : DjangoField) : FieldSchema :=
  match field.rel with
  | some r =>
    baseInfo field ++ [
      ("related_model", JValue.str r.related_model),
      ("many", JValue.bool r.kind.isMany)]
  | Option.none =>
    baseInfo field ++ (mlPart field ++ (chPart field ++ (defPart field ++
      (digitsPart field ++ (dpPart field ++ uniquePart field)))))

/-- A Django model class as consumed by the introspector:
`__name__`, the `_meta` attributes read by `get_model_schema` and
`get_all_models_schema`, and the result of `_meta.get_fields()`. -/
structure ModelClass where
  name : String
  app_label : String
  db_table : String
  verbose_name : String
  verbose_name_plural : String
  abstract : Bool
  fields : List DjangoField

/-- A model schema: the dict returned by `get_model_schema`. -/
structure ModelSchema where
  model_name : String
  app_label : String
  table_name : String
  verbose_name : String
  verbose_name_plural : String
  fields : List FieldSchema

/-- The field-enumeration loop of `get_model_schema`: iterate over
`_meta.get_fields()`, skipping reverse relations
(`field.auto_created and not field.concrete`). -/
def enumerate_fields : List DjangoField → List FieldSchema
  | [] => []
  | f :: fs =>
    if f.auto_created && !f.concrete then enumerate_fields fs
    else get_field_schema f :: enumerate_fields fs

/-- `get_model_schema` (introspection.py). -/
def get_model_schema (model_class : ModelClass) : ModelSchema :=
  { model_name := model_class.name
    app_label := model_class.app_label
    table_name := model_class.db_table
    verbose_name := model_class.verbose_name
    verbose_name_plural := model_class.verbose_name_plural
    fields := enumerate_fields model_class.fields }

/-- Python dict assignment `d[k] = v` on an insertion-ordered dict:
replace in place when the key exists, otherwise append. -/
def dictInsert (d : List (String × ModelSchema)) (k : String) (v : ModelSchema) :
    List (String × ModelSchema) :=
  if d.any (fun kv => kv.1 == k) then
    d.map (fun kv => if kv.1 == k then (k, v) else kv)
  else d ++ [(k, v)]

/-- The loop body of `get_all_models_schema`: skip abstract models and
the framework-internal app labels, otherwise insert the model's schema
under its class name. -/
def schemaStep (schemas : List (String × ModelSchema)) (m : ModelClass) :
    List (String × ModelSchema) :=
  if m.abstract then schemas
  else if m.app_label ∈ ["auth", "contenttypes", "sessions", "admin"] then schemas
  else dictInsert schemas m.name (get_model_schema m)

/-- `get_all_models_schema` (introspection.py): optionally filter the
registered models by app label, then build the name-to-schema dict,
skipping abstract models and Django's built-in apps. -/
def get_all_models_schema (models : List ModelClass) (app_label : Option String) :
    List (String × ModelSchema) :=
  let models := match app_label with
    | some al => models.filter (fun (m : ModelClass) => m.app_label == al)
    | Option.none => models
  models.foldl schemaStep []

/-- `validate_model_access` (introspection.py): with no allow-list every
model is allowed; otherwise a plain membership test. -/
def validate_model_access (model_name : String) (allowed_models : Option (List String)) : Bool :=
  match allowed_models with
  | Option.none => true
  | some l => l.contains model_name

/-- The allow-list filtering performed by `get_all_schemas_view`
(views/dynamic.py): keep only the schemas whose model name is in the
allowed list. -/
def filter_allowed (schemas : List (String × ModelSchema)) (allowed : List String) :
    List (String × ModelSchema) :=
  schemas.filter (fun kv => allowed.contains kv.1)

/-- A stored record as a dict mapping field name to value (the shape
produced by `queryset.values()`). -/
abbrev Row := List (String × JValue)

/-- The persistence-layer state seen by one repository: the stored rows
keyed by primary key, plus the next auto-assigned primary key. -/
structure Store where
  rows : List (Nat × Row)
  nextId : Nat

/-- The dict returned by `get_all` (base.py): note `page` echoes the
requested page number, not the clamped one. -/
structure PageResult where
  data : List Row
  page : Int
  total_pages : Nat
  total_count : Nat

/-- Django `Paginator.num_pages` with the default settings
(`orphans=0`, `allow_empty_first_page=True`):
`ceil(max(1, count) / per_page)`. -/
def num_pages (count per_page : Nat) : Nat :=
  (max 1 count + per_page - 1) / per_page

/-- Django `Paginator.get_page`: an out-of-range page number (below 1 or
above `num_pages`) is clamped to the last page. -/
def get_page_number (count per_page : Nat) (page : Int) : Nat :=
  let np := num_pages count per_page
  if page < 1 then np
  else if page > (np : Int) then np
  else page.toNat

/-- Django `Paginator.page(number).object_list`: the slice
`queryset[bottom:top]` with `bottom = (number-1)*per_page` and
`top = bottom + per_page` clamped to `count`. -/
def page_slice (qs : List Row) (per_page : Nat) (number : Nat) : List Row :=
  let count := qs.length
  let bottom := (number - 1) * per_page
  let top := bottom + per_page
  let top := if count ≤ top then count else top
  (qs.drop bottom).take (top - bottom)

/-- `get_all` (base.py).  The Django ORM operations
`queryset.filter(**filters)` and `queryset.order_by(*order_by)` are not
code of this repository; they enter as opaque queryset transformations,
applied only when the corresponding argument is present (the source's
`if filters:` / `if order_by:` truthiness checks). -/
def get_all (qs : List Row) (filters : Option (List Row → List Row))
    (order_by : Option (List Row → List Row)) (page : Int) (page_size : Nat) :
    PageResult :=
  let queryset := qs
  let queryset := match filters with
    | some f => f queryset
    | Option.none => queryset
  let queryset := match order_by with
    | some f => f queryset
    | Option.none => queryset
  let count := queryset.length
  let number := get_page_number count page_size page
  { data := page_slice queryset page_size number
    page := page
    total_pages := num_pages count page_size
    total_count := count }

/-- `get_by_id` (base.py): `objects.get(pk=id)` with `DoesNotExist`
caught and turned into `None`. -/
def get_by_id (st : Store) (id : Nat) : Option Row :=
  (st.rows.find? (fun r => r.1 == id)).map (fun r => r.2)

/-- The per-field validation-error mapping carried by a Django
`ValidationError` raised from `full_clean` (field name to the list of
messages for that field). -/
abbrev VErrors := List (String × List String)

/-- `create` (base.py): construct the instance from the given data, run
`full_clean`, and only on success `save` it.  `full_clean` is Django +
model `clean` code, passed in as the `validate` parameter; a `some errs`
result is the raised `ValidationError`, which propagates before `save`,
so the store is returned unchanged in that case. -/
def create (validate : Row → Option VErrors) (st : Store) (data : Row) :
    Store × Except VErrors Row :=
  match validate data with
  | some errs => (st, Except.error errs)
  | Option.none =>
    let row := ("id", JValue.int (st.nextId : Int)) :: data
    ({ rows := st.rows ++ [(st.nextId, row)], nextId := st.nextId + 1 },
     Except.ok row)

/-- Python `setattr(instance, key, value)` on the row dict. -/
def setField : Row → String → JValue → Row
  | [], k, v => [(k, v)]
  | (k', v') :: rest, k, v =>
    if k' == k then (k, v) :: rest else (k', v') :: setField rest k v

/-- The update loop `for key, value in data.items(): setattr(...)`. -/
def applyData (row : Row) (data : Row) : Row :=
  data.foldl (fun r kv => setField r kv.1 kv.2) row

/-- Outcome of `update` (base.py): `None` for a missing record, a raised
`ValidationError`, or the updated row. -/
inductive UpdateResult where
  | notFound
  | invalid (errs : VErrors)
  | ok (row : Row)

/-- `update` (base.py): load the record, apply the partial data, re-run
`full_clean` on the merged state, and only on success `save`.  A missing
record returns the `None` sentinel; a validation failure propagates
before `save`, leaving the store unchanged. -/
def update (validate : Row → Option VErrors) (st : Store) (id : Nat) (data : Row) :
    Store × UpdateResult :=
  match get_by_id st id with
  | Option.none => (st, UpdateResult.notFound)
  | some row =>
    let inst := applyData row data
    match validate inst with
    | some errs => (st, UpdateResult.invalid errs)
    | Option.none =>
      ({ st with rows := st.rows.map (fun r => if r.1 == id then (id, inst) else r) },
       UpdateResult.ok inst)

/-- `delete` (base.py): `False` when the record is absent, otherwise
remove it and return `True`. -/
def delete (st : Store) (id : Nat) : Store × Bool :=
  match get_by_id st id with
  | Option.none => (st, false)
  | some _ =>
    ({ st with rows := st.rows.filter (fun r => !(r.1 == id)) }, true)

/-! ### Concrete fixtures drawn from `backend/apps/tasks/models.py`,
used to evaluate the verified properties on closed inputs. -/

/-- `Task.title`: `CharField(max_length=200, help_text=...)`. -/
def fTitle : DjangoField :=
  { name := "title", className := "CharField", null := false, blank := false,
    hasDefault := false, default := PyValue.none, verbose_name := some "title",
    help_text := "Brief task description", max_length := some (some 200),
    choices := some [], max_digits := Option.none, decimal_places := Option.none,
    unique := some false, rel := Option.none, auto_created := false, concrete := true }

/-- The relationship metadata of `Task.tags`. -/
def relTag : RelInfo := { kind := RelKind.manyToMany, related_model := "Tag" }

/-- `Task.tags`: `ManyToManyField(Tag, blank=True, ...)`. -/
def fTags : DjangoField :=
  { name := "tags", className := "ManyToManyField", null := false, blank := true,
    hasDefault := false, default := PyValue.none, verbose_name := some "tags",
    help_text := "Tags for categorization", max_length := Option.none,
    choices := Option.none, max_digits := Option.none, decimal_places := Option.none,
    unique := Option.none, rel := some relTag, auto_created := false, concrete := true }

/-- `TeamMember.joined_at`: `DateField(default=timezone.now, ...)` — a
declared no-argument-callable default. -/
def fJoined : DjangoField :=
  { name := "joined_at", className := "DateField", null := false, blank := false,
    hasDefault := true, default := PyValue.callable, verbose_name := some "joined at",
    help_text := "Date joined the team", max_length := some Option.none,
    choices := some [], max_digits := Option.none, decimal_places := Option.none,
    unique := some false, rel := Option.none, auto_created := false, concrete := true }

/-- The reverse side of `Task.assigned_to` as seen on `TeamMember`
(`auto_created`, not `concrete`). -/
def fReverse : DjangoField :=
  { name := "assigned_tasks", className := "ManyToManyRel", null := false, blank := false,
    hasDefault := false, default := PyValue.none, verbose_name := Option.none,
    help_text := "", max_length := Option.none, choices := Option.none,
    max_digits := Option.none, decimal_places := Option.none, unique := Option.none,
    rel := Option.none, auto_created := true, concrete := false }

/-- The `Task` model with a scalar field, a relationship field and a
reverse relation. -/
def mTask : ModelClass :=
  { name := "Task", app_label := "tasks", db_table := "tasks_task",
    verbose_name := "Task", verbose_name_plural := "Tasks", abstract := false,
    fields := [fTitle, fTags, fReverse] }

/-- An abstract model definition. -/
def mAbstractBase : ModelClass :=
  { name := "AbstractBase", app_label := "tasks", db_table := "",
    verbose_name := "Abstract base", verbose_name_plural := "Abstract bases",
    abstract := true, fields := [] }

/-- Django's built-in `auth.User` model. -/
def mAuthUser : ModelClass :=
  { name := "User", app_label := "auth", db_table := "auth_user",
    verbose_name := "User", verbose_name_plural := "Users", abstract := false,
    fields := [] }

/-- A three-row collection, as in the spec's pagination example. -/
def qs3 : List Row :=
  [[("id", JValue.int 1)], [("id", JValue.int 2)], [("id", JValue.int 3)]]

/-- A stored row and a one-row store for the repository witnesses. -/
def row1 : Row := [("id", JValue.int 1), ("title", JValue.str "Write spec")]

def st1 : Store := { rows := [(1, row1)], nextId := 2 }

/-- A validation outcome naming `due_date`, as `Task.clean` raises it. -/
def vFail : Row → Option VErrors :=
  fun _ => some [("due_date", ["Due date cannot be in the past"])]

/-! ### Association-list lookup helpers -/

lemma lookup_append_left_none {β : Type} {l1 l2 : List (String × β)} {k : String}
    (h : l1.lookup k = Option.none) : (l1 ++ l2).lookup k = l2.lookup k := by
  induction l1 with
  | nil => rfl
  | cons kv rest ih =>
    rcases kv with ⟨k0, v0⟩
    cases hk : (k == k0) with
    | true => simp [List.lookup_cons, hk] at h
    | false =>
      simp only [List.cons_append, List.lookup_cons, hk] at h ⊢
      exact ih h

lemma lookup_append_left_some {β : Type} {l1 l2 : List (String × β)} {k : String} {v : β}
    (h : l1.lookup k = some v) : (l1 ++ l2).lookup k = some v := by
  induction l1 with
  | nil => simp [List.lookup] at h
  | cons kv rest ih =>
    rcases kv with ⟨k0, v0⟩
    cases hk : (k == k0) with
    | true => simp only [List.cons_append, List.lookup_cons, hk] at h ⊢; exact h
    | false =>
      simp only [List.cons_append, List.lookup_cons, hk] at h ⊢
      exact ih h

/-! ### Keys present in each conditional part of a field schema -/

lemma mlPart_lookup_ne (f : DjangoField) (k : String) (hk : (k == "max_length") = false) :
    (mlPart f).lookup k = Option.none := by
  rcases hml : f.max_length with _ | ⟨_ | n⟩
  · simp [mlPart, hml]
  · simp [mlPart, hml]
  · simp only [mlPart, hml]
    split
    · simp [List.lookup_cons, hk]
    · rfl

lemma chPart_lookup_ne (f : DjangoField) (k : String) (hk : (k == "choices") = false) :
    (chPart f).lookup k = Option.none := by
  rcases hch : f.choices with _ | cs
  · simp [chPart, hch]
  · simp only [chPart, hch]
    split
    · rfl
    · simp [List.lookup_cons, hk]

lemma digitsPart_lookup_ne (f : DjangoField) (k : String) (hk : (k == "max_digits") = false) :
    (digitsPart f).lookup k = Option.none := by
  rcases hmd : f.max_digits with _ | n
  · simp [digitsPart, hmd]
  · simp [digitsPart, hmd, List.lookup_cons, hk]

lemma dpPart_lookup_ne (f : DjangoField) (k : String) (hk : (k == "decimal_places") = false) :
    (dpPart f).lookup k = Option.none := by
  rcases hdp : f.decimal_places with _ | n
  · simp [dpPart, hdp]
  · simp [dpPart, hdp, List.lookup_cons, hk]

/-- In the non-relationship branch the emitted dict is the base keys
followed by the six conditional scalar parts. -/
lemma get_field_schema_scalar_eq (f : DjangoField) (hrel : f.rel = Option.none) :
    get_field_schema f =
      baseInfo f ++ (mlPart f ++ (chPart f ++ (defPart f ++
        (digitsPart f ++ (dpPart f ++ uniquePart f))))) := by
  unfold get_field_schema
  rw [hrel]

/-- In the relationship branch the emitted dict is the base keys plus
exactly `related_model` and `many`. -/
lemma get_field_schema_rel_eq (f : DjangoField) (r : RelInfo) (hrel : f.rel = some r) :
    get_field_schema f =
      baseInfo f ++ [
        ("related_model", JValue.str r.related_model),
        ("many", JValue.bool r.kind.isMany)] := by
  unfold get_field_schema
  rw [hrel]

/-- Every non-relationship field schema carries a `default` entry whose
value is the serialized declared default (or `null` without one). -/
lemma lookup_default_scalar (f : DjangoField) (hrel : f.rel = Option.none) :
    (get_field_schema f).lookup "default" = some (defaultJson f) := by
  rw [get_field_schema_scalar_eq f hrel]
  rw [lookup_append_left_none (by rfl)]
  rw [lookup_append_left_none (mlPart_lookup_ne f _ (by rfl))]
  rw [lookup_append_left_none (chPart_lookup_ne f _ (by rfl))]
  rfl

/-- The `max_length` entry of a non-relationship field schema is exactly
the conditional `mlPart` entry. -/
lemma lookup_max_length_scalar (f : DjangoField) (hrel : f.rel = Option.none) :
    (get_field_schema f).lookup "max_length" = (mlPart f).lookup "max_length" := by
  rw [get_field_schema_scalar_eq f hrel]
  rw [lookup_append_left_none (by rfl)]
  rcases hml : (mlPart f).lookup "max_length" with _ | v
  · rw [lookup_append_left_none hml]
    rw [lookup_append_left_none (chPart_lookup_ne f _ (by rfl))]
    rw [lookup_append_left_none (by rfl : (defPart f).lookup "max_length" = Option.none)]
    rw [lookup_append_left_none (digitsPart_lookup_ne f _ (by rfl))]
    rw [lookup_append_left_none (dpPart_lookup_ne f _ (by rfl))]
    rcases hun : f.unique with _ | b
    · simp [uniquePart, hun]
    · simp [uniquePart, hun, List.lookup_cons]
  · exact lookup_append_left_some hml

/-! ### The unconditional base keys -/

lemma lookup_name_base (f : DjangoField) :
    (get_field_schema f).lookup "name" = some (JValue.str f.name) := by
  rcases f with ⟨nm, cn, nl, bl, hd, df, vn, ht, ml, ch, md, dp, un, rel, ac, co⟩
  cases rel
  · rfl
  · rfl

lemma lookup_type_base (f : DjangoField) :
    (get_field_schema f).lookup "type" = some (JValue.str (get_field_type f.className)) := by
  rcases f with ⟨nm, cn, nl, bl, hd, df, vn, ht, ml, ch, md, dp, un, rel, ac, co⟩
  cases rel
  · rfl
  · rfl

lemma lookup_required_base (f : DjangoField) :
    (get_field_schema f).lookup "required" =
      some (JValue.bool (!f.null && !f.blank && !f.hasDefault)) := by
  rcases f with ⟨nm, cn, nl, bl, hd, df, vn, ht, ml, ch, md, dp, un, rel, ac, co⟩
  cases rel
  · rfl
  · rfl

lemma lookup_label_isSome (f : DjangoField) :
    ((get_field_schema f).lookup "label").isSome = true := by
  rcases f with ⟨nm, cn, nl, bl, hd, df, vn, ht, ml, ch, md, dp, un, rel, ac, co⟩
  cases rel
  · rfl
  · rfl

lemma lookup_help_text_isSome (f : DjangoField) :
    ((get_field_schema f).lookup "help_text").isSome = true := by
  rcases f with ⟨nm, cn, nl, bl, hd, df, vn, ht, ml, ch, md, dp, un, rel, ac, co⟩
  cases rel
  · rfl
  · rfl

/-! ### The relationship branch -/

lemma lookup_rel_related_model (f : DjangoField) (r : RelInfo) (hrel : f.rel = some r) :
    (get_field_schema f).lookup "related_model" = some (JValue.str r.related_model) := by
  rw [get_field_schema_rel_eq f r hrel]
  rw [lookup_append_left_none (by rfl)]
  rfl

lemma lookup_rel_many (f : DjangoField) (r : RelInfo) (hrel : f.rel = some r) :
    (get_field_schema f).lookup "many" = some (JValue.bool r.kind.isMany) := by
  rw [get_field_schema_rel_eq f r hrel]
  rw [lookup_append_left_none (by rfl)]
  rfl

/-- A relationship field schema never carries any of the scalar-only
keys. -/
lemma lookup_rel_scalar_keys_none (f : DjangoField) (r : RelInfo) (hrel : f.rel = some r) :
    (get_field_schema f).lookup "default" = Option.none ∧
    (get_field_schema f).lookup "max_length" = Option.none ∧
    (get_field_schema f).lookup "choices" = Option.none ∧
    (get_field_schema f).lookup "unique" = Option.none ∧
    (get_field_schema f).lookup "max_digits" = Option.none ∧
    (get_field_schema f).lookup "decimal_places" = Option.none := by
  rw [get_field_schema_rel_eq f r hrel]
  exact ⟨rfl, rfl, rfl, rfl, rfl, rfl⟩
lemma mlPart_lookup_isSome_iff (f : DjangoField) :
    ((mlPart f).lookup "max_length").isSome = true ↔
      ∃ n : Nat, f.max_length = some (some n) ∧ n ≠ 0 := by
  rcases hml : f.max_length with _ | ⟨_ | n⟩
  · simp [mlPart, hml]
  · simp [mlPart, hml]
  · simp only [mlPart, hml]
    by_cases hn : n = 0
    · simp [hn]
    · simp [hn, List.lookup_cons]

lemma enumerate_fields_eq (fs : List DjangoField) :
    enumerate_fields fs =
      (fs.filter (fun f => !(f.auto_created && !f.concrete))).map get_field_schema := by
  induction fs with
  | nil => rfl
  | cons f rest ih =>
    cases ha : f.auto_created <;> cases hc : f.concrete <;>
      simp [enumerate_fields, List.filter_cons, ha, hc, ih]

lemma mem_enumerate_fields {fs : List DjangoField} {s : FieldSchema}
    (hs : s ∈ enumerate_fields fs) :
    ∃ f, f ∈ fs ∧ (f.auto_created && !f.concrete) = false ∧ s = get_field_schema f := by
  rw [enumerate_fields_eq] at hs
  rcases List.mem_map.mp hs with ⟨f, hf, rfl⟩
  rcases List.mem_filter.mp hf with ⟨hmem, hkeep⟩
  refine ⟨f, hmem, ?_, rfl⟩
  cases hb : (f.auto_created && !f.concrete) <;> simp_all

lemma mem_dictInsert {d : List (String × ModelSchema)} {k : String} {v : ModelSchema}
    {kv : String × ModelSchema} (h : kv ∈ dictInsert d k v) :
    kv ∈ d ∨ kv = (k, v) := by
  unfold dictInsert at h
  split at h
  · rcases List.mem_map.mp h with ⟨a, ha, rfl⟩
    by_cases hk : (a.1 == k) = true
    · right; simp [hk]
    · left; simpa [hk] using ha
  · rcases List.mem_append.mp h with h1 | h1
    · exact Or.inl h1
    · right; simpa using h1

lemma foldl_schemaStep_mem {ms : List ModelClass} {acc : List (String × ModelSchema)}
    {kv : String × ModelSchema} (h : kv ∈ ms.foldl schemaStep acc) :
    kv ∈ acc ∨ ∃ m, m ∈ ms ∧ m.abstract = false ∧
      m.app_label ∉ ["auth", "contenttypes", "sessions", "admin"] ∧
      kv = (m.name, get_model_schema m) := by
  induction ms generalizing acc with
  | nil => exact Or.inl h
  | cons m rest ih =>
    rw [List.foldl_cons] at h
    rcases ih h with hacc | ⟨m', hm', hab, hlab, rfl⟩
    · unfold schemaStep at hacc
      split at hacc
      · exact Or.inl hacc
      · split at hacc
        · exact Or.inl hacc
        · rcases mem_dictInsert hacc with h1 | rfl
          · exact Or.inl h1
          · right
            refine ⟨m, List.mem_cons_self m rest, ?_, ?_, rfl⟩
            · rename_i hab _
              simpa using hab
            · rename_i hlab
              exact hlab
    · exact Or.inr ⟨m', List.mem_cons_of_mem m hm', hab, hlab, rfl⟩

/-! ### Repository helpers -/

lemma find_filter_ne_none (rows : List (Nat × Row)) (id : Nat) :
    (rows.filter (fun r => !(r.1 == id))).find? (fun r => r.1 == id) = Option.none := by
  induction rows with
  | nil => rfl
  | cons r rest ih =>
    by_cases h : (r.1 == id) = true
    · simp [List.filter_cons, h, ih]
    · simp only [Bool.not_eq_true] at h
      simp [List.filter_cons, h, List.find?_cons, ih]

/-- After `delete st id`, no record with primary key `id` remains. -/
lemma get_by_id_after_delete (st : Store) (id : Nat) :
    get_by_id (delete st id).1 id = Option.none := by
  unfold delete
  rcases hg : get_by_id st id with _ | row
  · exact hg
  · unfold get_by_id
    simp only
    rw [find_filter_ne_none]
    rfl

/-! ### Pagination helpers -/
lemma num_pages_pos (N P : Nat) (hP : 1 ≤ P) : 1 ≤ num_pages N P := by
  unfold num_pages
  have h1 : 1 ≤ max 1 N := le_max_left _ _
  exact (Nat.one_le_div_iff (by omega)).mpr (by omega)

lemma num_pages_eq (N P : Nat) (hP : 1 ≤ P) :
    num_pages N P = max 1 ((N + P - 1) / P) := by
  unfold num_pages
  rcases Nat.eq_zero_or_pos N with h0 | h0
  · subst h0
    have h1 : (0 + P - 1) / P = 0 := Nat.div_eq_of_lt (by omega)
    have h2 : (max 1 0 + P - 1) / P = 1 := by
      have h3 : max 1 0 + P - 1 = P := by omega
      rw [h3, Nat.div_self (by omega)]
    rw [h1, h2]
    omega
  · have h2 : max 1 N = N := by omega
    rw [h2]
    have h3 : 1 ≤ (N + P - 1) / P := (Nat.one_le_div_iff (by omega)).mpr (by omega)
    omega

lemma num_pages_mul_ge (N P : Nat) (hP : 1 ≤ P) : N ≤ num_pages N P * P := by
  unfold num_pages
  have hMN : N ≤ max 1 N := le_max_right _ _
  set M := max 1 N with hM
  have hd := Nat.div_add_mod (M + P - 1) P
  have hm : (M + P - 1) % P < P := Nat.mod_lt _ (by omega)
  rw [Nat.mul_comm]
  omega

lemma page_slice_length (qs : List Row) (P i : Nat) :
    (page_slice qs P i).length = min P (qs.length - (i - 1) * P) := by
  unfold page_slice
  simp only [List.length_take, List.length_drop]
  split
  · omega
  · omega

lemma sum_min_chunks (N P : Nat) :
    ∀ m : Nat, ((List.range m).map (fun i => min P (N - i * P))).sum = min N (m * P)
  | 0 => by simp
  | (m+1) => by
    rw [List.range_succ, List.map_append, List.sum_append, sum_min_chunks N P m]
    simp only [List.map_cons, List.map_nil, List.sum_cons, List.sum_nil]
    rw [Nat.succ_mul]
    omega

lemma get_all_data_eq (qs : List Row) (P : Nat) (page : Int) :
    (get_all qs Option.none Option.none page P).data =
      page_slice qs P (get_page_number qs.length P page) := rfl

lemma get_all_total_pages_eq (qs : List Row) (P : Nat) (page : Int) :
    (get_all qs Option.none Option.none page P).total_pages = num_pages qs.length P := rfl

lemma get_all_total_count_eq (qs : List Row) (P : Nat) (page : Int) :
    (get_all qs Option.none Option.none page P).total_count = qs.length := rfl

lemma get_page_number_of_valid (N P i : Nat) (h1 : 1 ≤ i) (h2 : i ≤ num_pages N P) :
    get_page_number N P (i : Int) = i := by
  unfold get_page_number
  rw [if_neg (by omega), if_neg (by omega)]
  simp

lemma get_page_number_beyond (N P : Nat) (page : Int) (hP : 1 ≤ P)
    (h : (num_pages N P : Int) < page) :
    get_page_number N P page = num_pages N P := by
  have hnp := num_pages_pos N P hP
  unfold get_page_number
  rw [if_neg (by omega), if_pos (by omega)]

lemma get_all_valid_page_length (qs : List Row) (P i : Nat)
    (hi : i < num_pages qs.length P) :
    (get_all qs Option.none Option.none ((i : Int) + 1) P).data.length =
      min P (qs.length - i * P) := by
  rw [get_all_data_eq]
  have hcast : ((i : Int) + 1) = ((i + 1 : Nat) : Int) := by push_cast; ring
  rw [hcast, get_page_number_of_valid qs.length P (i + 1) (by omega) (by omega)]
  rw [page_slice_length]
  simp

lemma page_slice_nil (P i : Nat) : page_slice ([] : List Row) P i = [] := by
  simp [page_slice]

/-! ### The claims -/
/-- Claim C1: for every field of every model, the emitted field schema's
`required` flag equals `not nullable and not blank-allowed and not
has-default`, and this holds for every field entry of every emitted
schema document (both a single model's document and every document
produced by `get_all_models_schema`). -/
theorem required_flag_spec (f : DjangoField) (m : ModelClass)
    (models : List ModelClass) (al : Option String)
    (doc : String × ModelSchema) (s s' : FieldSchema) :
    ((get_field_schema f).lookup "required" =
      some (JValue.bool (!f.null && !f.blank && !f.hasDefault))) ∧
    (s ∈ (get_model_schema m).fields →
      ∃ g, g ∈ m.fields ∧ s = get_field_schema g ∧
        s.lookup "required" = some (JValue.bool (!g.null && !g.blank && !g.hasDefault))) ∧
    (doc ∈ get_all_models_schema models al → s' ∈ doc.2.fields →
      ∃ g, s' = get_field_schema g ∧
        s'.lookup "required" = some (JValue.bool (!g.null && !g.blank && !g.hasDefault))) := by
  refine ⟨lookup_required_base f, ?_, ?_⟩
  · intro hs
    rcases mem_enumerate_fields hs with ⟨g, hg, hkeep, rfl⟩
    exact ⟨g, hg, rfl, lookup_required_base g⟩
  · intro hdoc hs'
    simp only [get_all_models_schema] at hdoc
    rcases foldl_schemaStep_mem hdoc with hacc | ⟨mc, hmc, hab, hlab, rfl⟩
    · simp at hacc
    · rcases mem_enumerate_fields hs' with ⟨g, hg, hkeep, rfl⟩
      exact ⟨g, rfl, lookup_required_base g⟩

theorem required_flag_spec_witness :
    get_field_schema fTitle ∈ (get_model_schema mTask).fields ∧
    ("Task", get_model_schema mTask) ∈ get_all_models_schema [mTask] Option.none ∧
    ((get_field_schema fTitle).lookup "required" = some (JValue.bool true) ∧
     (∃ g, g ∈ mTask.fields ∧ get_field_schema fTitle = get_field_schema g ∧
        (get_field_schema fTitle).lookup "required" =
          some (JValue.bool (!g.null && !g.blank && !g.hasDefault))) ∧
     (∃ g, get_field_schema fTitle = get_field_schema g ∧
        (get_field_schema fTitle).lookup "required" =
          some (JValue.bool (!g.null && !g.blank && !g.hasDefault)))) := by
  have hmem : get_field_schema fTitle ∈ (get_model_schema mTask).fields :=
    List.mem_cons_self _ _
  have hdoc : ("Task", get_model_schema mTask) ∈ get_all_models_schema [mTask] Option.none :=
    List.mem_singleton.mpr rfl
  have H := required_flag_spec fTitle mTask [mTask] Option.none
    ("Task", get_model_schema mTask) (get_field_schema fTitle) (get_field_schema fTitle)
  exact ⟨hmem, hdoc, H.1, H.2.1 hmem, H.2.2 hdoc hmem⟩

/-- Claim C7: every relationship field's schema carries the related
model's name and a `many` flag that is true exactly for to-many
relationships, and never populates `max_length`, `choices`, or the
numeric-precision keys. -/
theorem relationship_field_spec (f : DjangoField) (r : RelInfo) (hrel : f.rel = some r) :
    (get_field_schema f).lookup "related_model" = some (JValue.str r.related_model) ∧
    ((get_field_schema f).lookup "many" = some (JValue.bool true) ↔
      r.kind = RelKind.manyToMany) ∧
    (get_field_schema f).lookup "max_length" = Option.none ∧
    (get_field_schema f).lookup "choices" = Option.none ∧
    (get_field_schema f).lookup "max_digits" = Option.none ∧
    (get_field_schema f).lookup "decimal_places" = Option.none := by
  obtain ⟨hdef, hml, hch, hun, hmd, hdp⟩ := lookup_rel_scalar_keys_none f r hrel
  refine ⟨lookup_rel_related_model f r hrel, ?_, hml, hch, hmd, hdp⟩
  rw [lookup_rel_many f r hrel]
  rcases r with ⟨k, rm⟩
  cases k <;> simp [RelKind.isMany]

theorem relationship_field_spec_witness :
    fTags.rel = some relTag ∧
    ((get_field_schema fTags).lookup "related_model" = some (JValue.str "Tag") ∧
     ((get_field_schema fTags).lookup "many" = some (JValue.bool true) ↔
       relTag.kind = RelKind.manyToMany) ∧
     (get_field_schema fTags).lookup "max_length" = Option.none ∧
     (get_field_schema fTags).lookup "choices" = Option.none ∧
     (get_field_schema fTags).lookup "max_digits" = Option.none ∧
     (get_field_schema fTags).lookup "decimal_places" = Option.none) := by
  have H := relationship_field_spec fTags relTag rfl
  exact ⟨rfl, H.1, H.2.1, H.2.2.1, H.2.2.2.1, H.2.2.2.2.1, H.2.2.2.2.2⟩

/-- Claim C9: with no allow-list every model name is allowed; with an
allow-list the check is exactly case-sensitive membership — a
lower-cased name and a wildcard string are both rejected by a list that
does not literally contain them. -/
theorem access_policy_spec (model_name : String) (l : List String) :
    validate_model_access model_name Option.none = true ∧
    (validate_model_access model_name (some l) = true ↔ model_name ∈ l) ∧
    validate_model_access "task" (some ["Task"]) = false ∧
    validate_model_access "*" (some ["Task"]) = false := by
  refine ⟨rfl, ?_, by decide, by decide⟩
  simp [validate_model_access]
/-- Claim C3: for every non-relationship field with a declared default,
a no-argument-callable default is reported as `null`, a primitive
(string, number, bool, or `None`) is reported verbatim, and any other
value is reported as its string form — the `default` key is never
omitted. -/
theorem default_serialization_spec (f : DjangoField)
    (hrel : f.rel = Option.none) (hdef : f.hasDefault = true) :
    ((get_field_schema f).lookup "default").isSome = true ∧
    (f.default = PyValue.callable →
      (get_field_schema f).lookup "default" = some JValue.null) ∧
    (∀ s, f.default = PyValue.str s →
      (get_field_schema f).lookup "default" = some (JValue.str s)) ∧
    (∀ n, f.default = PyValue.int n →
      (get_field_schema f).lookup "default" = some (JValue.int n)) ∧
    (∀ x, f.default = PyValue.float x →
      (get_field_schema f).lookup "default" = some (JValue.float x)) ∧
    (∀ b, f.default = PyValue.bool b →
      (get_field_schema f).lookup "default" = some (JValue.bool b)) ∧
    (f.default = PyValue.none →
      (get_field_schema f).lookup "default" = some JValue.null) ∧
    (∀ s, f.default = PyValue.other s →
      (get_field_schema f).lookup "default" = some (JValue.str s)) := by
  have hl := lookup_default_scalar f hrel
  have hdj : defaultJson f = serializeDefault f.default := by
    simp [defaultJson, hdef]
  rw [hdj] at hl
  refine ⟨by rw [hl]; rfl, ?_, ?_, ?_, ?_, ?_, ?_, ?_⟩
  · intro h; rw [hl, h]; rfl
  · intro s h; rw [hl, h]; rfl
  · intro n h; rw [hl, h]; rfl
  · intro x h; rw [hl, h]; rfl
  · intro b h; rw [hl, h]; rfl
  · intro h; rw [hl, h]; rfl
  · intro s h; rw [hl, h]; rfl

theorem default_serialization_spec_witness :
    fJoined.rel = Option.none ∧ fJoined.hasDefault = true ∧
    fJoined.default = PyValue.callable ∧
    ((get_field_schema fJoined).lookup "default").isSome = true ∧
    (get_field_schema fJoined).lookup "default" = some JValue.null := by
  have H := default_serialization_spec fJoined rfl rfl
  exact ⟨rfl, rfl, rfl, H.1, H.2.1 rfl⟩

/-- Claim C10: every field schema carries `name`, `type`, `required`,
`label` and `help_text`; every non-relationship schema also always
carries `default` (`null` when no default is declared); a relationship
schema never carries `default`, `max_length`, `choices`, `unique`,
`max_digits` or `decimal_places`; and a scalar schema carries
`max_length` exactly when the attribute is present, non-null and
non-zero. -/
theorem field_schema_keys_spec (f : DjangoField) (r : RelInfo) :
    (((get_field_schema f).lookup "name").isSome = true ∧
     ((get_field_schema f).lookup "type").isSome = true ∧
     ((get_field_schema f).lookup "required").isSome = true ∧
     ((get_field_schema f).lookup "label").isSome = true ∧
     ((get_field_schema f).lookup "help_text").isSome = true) ∧
    (f.rel = Option.none →
      ((get_field_schema f).lookup "default").isSome = true ∧
      (f.hasDefault = false →
        (get_field_schema f).lookup "default" = some JValue.null)) ∧
    (f.rel = some r →
      (get_field_schema f).lookup "default" = Option.none ∧
      (get_field_schema f).lookup "max_length" = Option.none ∧
      (get_field_schema f).lookup "choices" = Option.none ∧
      (get_field_schema f).lookup "unique" = Option.none ∧
      (get_field_schema f).lookup "max_digits" = Option.none ∧
      (get_field_schema f).lookup "decimal_places" = Option.none) ∧
    (f.rel = Option.none →
      (((get_field_schema f).lookup "max_length").isSome = true ↔
        ∃ n, f.max_length = some (some n) ∧ n ≠ 0)) := by
  refine ⟨⟨?_, ?_, ?_, lookup_label_isSome f, lookup_help_text_isSome f⟩, ?_, ?_, ?_⟩
  · rw [lookup_name_base f]; rfl
  · rw [lookup_type_base f]; rfl
  · rw [lookup_required_base f]; rfl
  · intro hrel
    have hl := lookup_default_scalar f hrel
    refine ⟨by rw [hl]; rfl, ?_⟩
    intro hd
    rw [hl]
    simp [defaultJson, hd]
  · exact lookup_rel_scalar_keys_none f r
  · intro hrel
    rw [lookup_max_length_scalar f hrel]
    exact mlPart_lookup_isSome_iff f

theorem field_schema_keys_spec_witness :
    (((get_field_schema fTitle).lookup "name").isSome = true ∧
     ((get_field_schema fTitle).lookup "default").isSome = true ∧
     ((get_field_schema fTitle).lookup "max_length").isSome = true) ∧
    ((get_field_schema fTags).lookup "default" = Option.none ∧
     (get_field_schema fTags).lookup "unique" = Option.none) := by
  have H1 := field_schema_keys_spec fTitle relTag
  have H2 := field_schema_keys_spec fTags relTag
  refine ⟨⟨H1.1.1, (H1.2.1 rfl).1, ?_⟩, (H2.2.2.1 rfl).1, (H2.2.2.1 rfl).2.2.2.1⟩
  exact (H1.2.2.2 rfl).mpr ⟨200, rfl, by decide⟩

/-- Claim C6: no document emitted by `get_all_models_schema` — for any
app-label filter, and also after any view-level allow-list filtering —
comes from an abstract model or from a model in the infrastructure app
labels `auth`, `contenttypes`, `sessions`, `admin`. -/
theorem schema_for_all_excludes_infra (models : List ModelClass) (al : Option String)
    (allowed : List String) (kv : String × ModelSchema) :
    (kv ∈ get_all_models_schema models al →
      ∃ m, m ∈ models ∧ m.abstract = false ∧
        m.app_label ∉ ["auth", "contenttypes", "sessions", "admin"] ∧
        kv = (m.name, get_model_schema m)) ∧
    (kv ∈ filter_allowed (get_all_models_schema models al) allowed →
      ∃ m, m ∈ models ∧ m.abstract = false ∧
        m.app_label ∉ ["auth", "contenttypes", "sessions", "admin"] ∧
        kv = (m.name, get_model_schema m)) := by
  have main : kv ∈ get_all_models_schema models al →
      ∃ m, m ∈ models ∧ m.abstract = false ∧
        m.app_label ∉ ["auth", "contenttypes", "sessions", "admin"] ∧
        kv = (m.name, get_model_schema m) := by
    intro h
    rcases al with _ | a <;> simp only [get_all_models_schema] at h
    · rcases foldl_schemaStep_mem h with hacc | ⟨mc, hmc, hab, hlab, rfl⟩
      · simp at hacc
      · exact ⟨mc, hmc, hab, hlab, rfl⟩
    · rcases foldl_schemaStep_mem h with hacc | ⟨mc, hmc, hab, hlab, rfl⟩
      · simp at hacc
      · exact ⟨mc, (List.mem_filter.mp hmc).1, hab, hlab, rfl⟩
  exact ⟨main, fun h => main (List.mem_of_mem_filter h)⟩

theorem schema_for_all_excludes_infra_witness :
    ("Task", get_model_schema mTask) ∈
      get_all_models_schema [mAbstractBase, mAuthUser, mTask] Option.none ∧
    ("Task", get_model_schema mTask) ∈
      filter_allowed
        (get_all_models_schema [mAbstractBase, mAuthUser, mTask] Option.none)
        ["Task", "Project"] ∧
    (∃ m, m ∈ [mAbstractBase, mAuthUser, mTask] ∧ m.abstract = false ∧
      m.app_label ∉ ["auth", "contenttypes", "sessions", "admin"] ∧
      ("Task", get_model_schema mTask) = (m.name, get_model_schema m)) := by
  have h1 : ("Task", get_model_schema mTask) ∈
      get_all_models_schema [mAbstractBase, mAuthUser, mTask] Option.none :=
    List.mem_singleton.mpr rfl
  have h2 : ("Task", get_model_schema mTask) ∈
      filter_allowed
        (get_all_models_schema [mAbstractBase, mAuthUser, mTask] Option.none)
        ["Task", "Project"] :=
    List.mem_singleton.mpr rfl
  have H := schema_for_all_excludes_infra [mAbstractBase, mAuthUser, mTask]
    Option.none ["Task", "Project"] ("Task", get_model_schema mTask)
  exact ⟨h1, h2, H.1 h1⟩

/-- Claim C8: a model's schema lists exactly the forward, concrete
fields: every concretely declared field contributes an entry, and no
reverse or auto-generated relation field (`auto_created` and not
`concrete`) contributes one. -/
theorem field_enumeration_spec (m : ModelClass) (s : FieldSchema) :
    ((get_model_schema m).fields =
      (m.fields.filter (fun f => !(f.auto_created && !f.concrete))).map get_field_schema) ∧
    (∀ f, f ∈ m.fields → (f.auto_created && !f.concrete) = false →
      get_field_schema f ∈ (get_model_schema m).fields) ∧
    (s ∈ (get_model_schema m).fields →
      ∃ f, f ∈ m.fields ∧ (f.auto_created && !f.concrete) = false ∧
        s = get_field_schema f) := by
  refine ⟨enumerate_fields_eq m.fields, ?_, fun hs => mem_enumerate_fields hs⟩
  intro f hf hkeep
  show get_field_schema f ∈ enumerate_fields m.fields
  rw [enumerate_fields_eq]
  exact List.mem_map_of_mem _ (List.mem_filter.mpr ⟨hf, by simp [hkeep]⟩)

theorem field_enumeration_spec_witness :
    fTitle ∈ mTask.fields ∧ (fTitle.auto_created && !fTitle.concrete) = false ∧
    ((get_model_schema mTask).fields =
      (mTask.fields.filter (fun f => !(f.auto_created && !f.concrete))).map
        get_field_schema) ∧
    get_field_schema fTitle ∈ (get_model_schema mTask).fields ∧
    (∃ f, f ∈ mTask.fields ∧ (f.auto_created && !f.concrete) = false ∧
      get_field_schema fTitle = get_field_schema f) := by
  have H := field_enumeration_spec mTask (get_field_schema fTitle)
  have hmem : fTitle ∈ mTask.fields := List.mem_cons_self _ _
  exact ⟨hmem, rfl, H.1, H.2.1 fTitle hmem rfl, H.2.2 (List.mem_cons_self _ _)⟩
/-- Claim C4: an input that fails validation makes `create` and `update`
surface the raised `ValidationError` as the per-field message mapping
produced by validation, and the store is left unchanged in both cases —
a failed create persists no row and a failed update leaves the targeted
record with its prior values. -/
theorem validation_failure_spec (validate : Row → Option VErrors) (st : Store)
    (id : Nat) (data row : Row) (errs errs2 : VErrors) :
    (validate data = some errs →
      create validate st data = (st, Except.error errs)) ∧
    (get_by_id st id = some row →
      validate (applyData row data) = some errs2 →
      update validate st id data = (st, UpdateResult.invalid errs2)) := by
  constructor
  · intro h
    simp only [create, h]
  · intro h1 h2
    simp only [update, h1, h2]

theorem validation_failure_spec_witness :
    vFail [("title", JValue.str "x")] =
      some [("due_date", ["Due date cannot be in the past"])] ∧
    get_by_id st1 1 = some row1 ∧
    vFail (applyData row1 [("title", JValue.str "x")]) =
      some [("due_date", ["Due date cannot be in the past"])] ∧
    create vFail st1 [("title", JValue.str "x")] =
      (st1, Except.error [("due_date", ["Due date cannot be in the past"])]) ∧
    update vFail st1 1 [("title", JValue.str "x")] =
      (st1, UpdateResult.invalid [("due_date", ["Due date cannot be in the past"])]) := by
  have H := validation_failure_spec vFail st1 1 [("title", JValue.str "x")] row1
    [("due_date", ["Due date cannot be in the past"])]
    [("due_date", ["Due date cannot be in the past"])]
  exact ⟨rfl, rfl, rfl, H.1 rfl, H.2 rfl rfl⟩

/-- Claim C5: for an id with no stored record, `get_by_id` returns the
`None` sentinel, `update` returns the `None` sentinel without modifying
anything, and `delete` returns `False`; all three are total functions
(no exception path), and deleting the same id twice always returns
`False` the second time. -/
theorem missing_record_spec (validate : Row → Option VErrors) (st st2 : Store)
    (id id2 : Nat) (data : Row) :
    ((∀ r, r ∈ st.rows → r.1 ≠ id) →
      get_by_id st id = Option.none ∧
      update validate st id data = (st, UpdateResult.notFound) ∧
      delete st id = (st, false)) ∧
    (delete (delete st2 id2).1 id2).2 = false := by
  constructor
  · intro hmiss
    have hnone : st.rows.find? (fun r => r.1 == id) = Option.none :=
      List.find?_eq_none.mpr (fun r hr => by simpa using hmiss r hr)
    have hget : get_by_id st id = Option.none := by
      unfold get_by_id
      rw [hnone]
      rfl
    refine ⟨hget, ?_, ?_⟩
    · simp only [update, hget]
    · simp only [delete, hget]
  · have h := get_by_id_after_delete st2 id2
    set st3 := (delete st2 id2).1 with hst3
    show (delete st3 id2).2 = false
    simp only [delete, h]

theorem missing_record_spec_witness :
    (∀ r, r ∈ st1.rows → r.1 ≠ 2) ∧
    (get_by_id st1 2 = Option.none ∧
     update vFail st1 2 row1 = (st1, UpdateResult.notFound) ∧
     delete st1 2 = (st1, false)) ∧
    (delete (delete st1 1).1 1).2 = false := by
  have hmiss : ∀ r, r ∈ st1.rows → r.1 ≠ 2 := by decide
  have H := missing_record_spec vFail st1 st1 2 1 row1
  exact ⟨hmiss, H.1 hmiss, H.2⟩

/-- Claim C2: for a collection of `N` rows and a page size `P ≥ 1`, the
list operation reports `total_count = N` and
`total_pages = max 1 (ceil (N / P))`, the page sizes over pages
`1..total_pages` sum to `N`, a request beyond the last page returns the
last page's rows rather than erroring, and an empty collection yields an
empty data list. -/
theorem get_all_pagination_spec (qs : List Row) (P : Nat) (page : Int) (hP : 1 ≤ P) :
    (get_all qs Option.none Option.none page P).total_count = qs.length ∧
    (get_all qs Option.none Option.none page P).total_pages =
      max 1 ((qs.length + P - 1) / P) ∧
    (((List.range ((get_all qs Option.none Option.none page P).total_pages)).map
        (fun (i : Nat) =>
          (get_all qs Option.none Option.none ((i : Int) + 1) P).data.length)).sum
      = qs.length) ∧
    (((get_all qs Option.none Option.none page P).total_pages : Int) < page →
      (get_all qs Option.none Option.none page P).data =
        (get_all qs Option.none Option.none
          ((get_all qs Option.none Option.none page P).total_pages : Int) P).data) ∧
    (qs.length = 0 → (get_all qs Option.none Option.none page P).data = []) := by
  refine ⟨rfl, ?_, ?_, ?_, ?_⟩
  · rw [get_all_total_pages_eq, num_pages_eq qs.length P hP]
  · rw [get_all_total_pages_eq]
    rw [List.map_congr_left (fun i hi =>
      get_all_valid_page_length qs P i (List.mem_range.mp hi))]
    rw [sum_min_chunks]
    have := num_pages_mul_ge qs.length P hP
    omega
  · intro h
    rw [get_all_total_pages_eq] at h
    simp only [get_all_data_eq, get_all_total_pages_eq]
    rw [get_page_number_beyond qs.length P page hP h]
    rw [get_page_number_of_valid qs.length P (num_pages qs.length P)
      (num_pages_pos qs.length P hP) (le_refl _)]
  · intro h
    rw [get_all_data_eq]
    rw [List.length_eq_zero.mp h]
    exact page_slice_nil P _

theorem get_all_pagination_spec_witness :
    (1 : Nat) ≤ 50 ∧
    ((get_all qs3 Option.none Option.none 5 50).total_count = 3 ∧
     (get_all qs3 Option.none Option.none 5 50).total_pages = 1 ∧
     (((List.range ((get_all qs3 Option.none Option.none 5 50).total_pages)).map
        (fun (i : Nat) =>
          (get_all qs3 Option.none Option.none ((i : Int) + 1) 50).data.length)).sum
       = 3) ∧
     (((get_all qs3 Option.none Option.none 5 50).total_pages : Int) < 5 →
       (get_all qs3 Option.none Option.none 5 50).data =
         (get_all qs3 Option.none Option.none
           ((get_all qs3 Option.none Option.none 5 50).total_pages : Int) 50).data) ∧
     (qs3.length = 0 → (get_all qs3 Option.none Option.none 5 50).data = [])) := by
  have H := get_all_pagination_spec qs3 50 5 (by decide)
  exact ⟨by decide, H.1, H.2.1, H.2.2.1, H.2.2.2.1, H.2.2.2.2⟩
